import Mathlib

/-!
Verification development for the option-flow monitoring repository.

Shallow embedding of the core modules:
  * `tools/monitor_utils.py`   — parsing helpers, column detection, dedup substrate
  * `tools/monitor_7day_alerts.py` — threshold alert engine (`check_side`)
  * `tools/allday_db.py`       — historical store queries (`query_net_flow`,
                                  `query_opposite_orders`)
  * `tools/multi_source_check.py` — reconciliation engine (`check_multi_source`,
                                  `check_opposite_orders`)
  * `tools/unified_db.py`      — unified record store (`_parse_rows`,
                                  `_insert_entries`, `load_all`)

Python floats are modelled as rationals (`ℚ`); every numeric literal the
theorems exercise is exactly representable in both.  Python strings are Lean
`String`s (cell data here is ASCII).  SQLite rows are Lean structures, a table
is a `List` of rows in rowid order, and a connection's transaction is modelled
by staging changes and publishing them only at `commit` (an exception raised
before the commit leaves the committed state untouched, as Python's sqlite3
rolls an uncommitted transaction back).
-/

/-! ## Python string primitives -/

/-- Python regex `\s` and `str.strip()` whitespace for the ASCII range:
space, tab, newline, carriage return, form feed, vertical tab. -/
def pyIsSpace (c : Char) : Bool :=
  c = ' ' || c = '\t' || c = '\n' || c = '\r' || c = Char.ofNat 12 || c = Char.ofNat 11

/-- Drop leading and trailing whitespace from a character list (`str.strip()`). -/
def pyStripChars (cs : List Char) : List Char :=
  ((cs.dropWhile pyIsSpace).reverse.dropWhile pyIsSpace).reverse

/-- Python `str.strip()` on a `String`. -/
def pyStrip (s : String) : String :=
  String.mk (pyStripChars s.toList)

/-- Replace each maximal run of whitespace by a single space; the `Bool`
argument records whether the previous character belonged to a run
(`re.sub(r"\s+", " ", s)`). -/
def collapseWsGo : Bool → List Char → List Char
  | _, [] => []
  | inRun, c :: rest =>
    if pyIsSpace c then
      if inRun then collapseWsGo true rest else ' ' :: collapseWsGo true rest
    else c :: collapseWsGo false rest

/-- Lower-case every character (ASCII; Python `str.lower()` on the data the
sheets carry). -/
def listLower (cs : List Char) : List Char :=
  cs.map Char.toLower

/-- Does `needle` occur at the head of `hay`? -/
def startsWithList : List Char → List Char → Bool
  | [], _ => true
  | _ :: _, [] => false
  | a :: as_, b :: bs => a = b && startsWithList as_ bs

/-- Python's substring test `needle in hay`. -/
def subOf (needle : List Char) : List Char → Bool
  | [] => needle.isEmpty
  | c :: rest => startsWithList needle (c :: rest) || subOf needle rest

/-- Python `str.rstrip(c)` for a one-character strip set. -/
def rstripChar (c : Char) (s : String) : String :=
  String.mk ((s.toList.reverse.dropWhile (· = c)).reverse)

/-! ## Python numeric literals

`float(s)` / `int(s)` on the decimal literals spreadsheet cells carry.  The
modelled fragment is: surrounding whitespace, an optional sign, digits with an
optional point, and an optional exponent — over `ℚ`.  Python's special float
spellings (`inf`, `nan`, underscores, hex) fall outside the cells these
modules parse and are treated as unparsable. -/

/-- Value of a digit run (most significant first). -/
def digitsVal (ds : List Char) : Nat :=
  ds.foldl (fun a c => a * 10 + (c.toNat - 48)) 0

/-- Ten to an integer power, over `ℚ`. -/
def qpow10 (e : Int) : ℚ :=
  if 0 ≤ e then (10 : ℚ) ^ e.toNat else 1 / (10 : ℚ) ^ (-e).toNat

/-- Exponent suffix of a float literal: empty, or `e`/`E`, optional sign,
digits.  `m` is the signed mantissa value. -/
def parseExpSuffix (cs : List Char) (m : ℚ) : Option ℚ :=
  match cs with
  | [] => some m
  | c :: rest =>
    if c = 'e' || c = 'E' then
      let signed : Int × List Char :=
        match rest with
        | '+' :: r => (1, r)
        | '-' :: r => (-1, r)
        | r => (1, r)
      let ed := signed.2.takeWhile Char.isDigit
      let rest3 := signed.2.dropWhile Char.isDigit
      if ed.isEmpty || !rest3.isEmpty then none
      else some (m * qpow10 (signed.1 * (digitsVal ed : Int)))
    else none

/-- Mantissa (digits, optional point, digits) then exponent; `sign` is ±1. -/
def parseMantissa (cs : List Char) (sign : ℚ) : Option ℚ :=
  let intd := cs.takeWhile Char.isDigit
  let rest1 := cs.dropWhile Char.isDigit
  match rest1 with
  | '.' :: rest2 =>
    let fracd := rest2.takeWhile Char.isDigit
    let rest3 := rest2.dropWhile Char.isDigit
    if intd.isEmpty && fracd.isEmpty then none
    else
      parseExpSuffix rest3
        (sign * ((digitsVal intd : ℚ) + (digitsVal fracd : ℚ) / (10 : ℚ) ^ fracd.length))
  | _ =>
    if intd.isEmpty then none
    else parseExpSuffix rest1 (sign * (digitsVal intd : ℚ))

/-- Python `float(s)`, over the modelled fragment; `none` means `ValueError`. -/
def pyFloatL (cs : List Char) : Option ℚ :=
  let t := pyStripChars cs
  match t with
  | '+' :: rest => parseMantissa rest 1
  | '-' :: rest => parseMantissa rest (-1)
  | _ => parseMantissa t 1

/-- Python `int(s)`; `none` means `ValueError`. -/
def pyIntL (cs : List Char) : Option Int :=
  let t := pyStripChars cs
  let signed : Int × List Char :=
    match t with
    | '+' :: r => (1, r)
    | '-' :: r => (-1, r)
    | r => (1, r)
  if signed.2.isEmpty || !(signed.2.all Char.isDigit) then none
  else some (signed.1 * (digitsVal signed.2 : Int))

/-- Python `int(s)` on a `String`. -/
def pyInt (s : String) : Option Int :=
  pyIntL s.toList

/-! ## tools/monitor_utils.py — parsing helpers (lines 20-85) -/

/-- Embeds `monitor_utils.parse_dollar` (lines 20-42): strip `$` and `,`, honour a
trailing K/M/B suffix case-insensitively, return 0.0 when unparsable.
(`tools/monitor_7day_alerts.py` lines 38-61 define a byte-identical copy.) -/
def parse_dollar (value : String) : ℚ :=
  if (pyStripChars value.toList).isEmpty then 0   -- `not value or not str(value).strip()`
  else
    let s := pyStripChars ((pyStripChars value.toList).filter (fun c => c ≠ '$' && c ≠ ','))
    match s.getLast? with
    | none => 0                                   -- `s[-1]` raises IndexError
    | some last =>
      let suffixed : ℚ × List Char :=
        if last.toUpper = 'M' then (1000000, s.dropLast)
        else if last.toUpper = 'K' then (1000, s.dropLast)
        else if last.toUpper = 'B' then (1000000000, s.dropLast)
        else (1, s)
      match pyFloatL suffixed.2 with
      | some q => q * suffixed.1
      | none => 0                                 -- `float(s)` raises ValueError

/-- Embeds `monitor_utils.parse_qty` (lines 45-64): strip `,` only (no currency
symbol), honour K/M suffixes only (no B), return 0.0 when unparsable. -/
def parse_qty (value : String) : ℚ :=
  if (pyStripChars value.toList).isEmpty then 0
  else
    let s := pyStripChars ((pyStripChars value.toList).filter (fun c => c ≠ ','))
    match s.getLast? with
    | none => 0
    | some last =>
      let suffixed : ℚ × List Char :=
        if last.toUpper = 'K' then (1000, s.dropLast)
        else if last.toUpper = 'M' then (1000000, s.dropLast)
        else (1, s)
      match pyFloatL suffixed.2 with
      | some q => q * suffixed.1
      | none => 0

/-- Header text normalised as in `find_column_index`:
`re.sub(r"\s+", " ", str(h)).strip().lower()`. -/
def normHeader (h : String) : List Char :=
  listLower (pyStripChars (collapseWsGo false h.toList))

/-- Does a header match any of the patterns (`pat.lower() in h_norm`)? -/
def headerMatches (h : String) (pats : List String) : Bool :=
  pats.any (fun pat => subOf (listLower pat.toList) (normHeader h))

/-- Embeds `monitor_utils.find_column_index` (lines 67-78): index of the first header
containing any pattern, case-insensitively after whitespace normalisation.
(`tools/monitor_7day_alerts.py` lines 86-98 define a byte-identical copy.) -/
def find_column_index : List String → List String → Option Nat
  | [], _ => none
  | h :: rest, pats =>
    if headerMatches h pats then some 0
    else (find_column_index rest pats).map (· + 1)

/-- Embeds `monitor_utils.safe_get` (lines 81-85): `row[idx]` when the index exists,
the default otherwise. -/
def safe_get (row : List String) (idx : Option Nat) (default : String) : String :=
  match idx with
  | some i => row.getD i default
  | none => default

/-! ## tools/monitor_utils.py — dedup substrate (lines 112-166)

The persisted JSON state `{date, seen}` is a `DedupState`; the state file on
disk is an `Option DedupState` (absent file = `none`).  `seen` holds the alert
keys; the content hash (md5 of the key string) is modelled by the key string
itself, i.e. hashing is assumed collision-free. -/

structure DedupState where
  date : String
  seen : List String
deriving DecidableEq

/-- Embeds `monitor_utils.load_state` (lines 129-141): the persisted state when its
date is today, a fresh empty state otherwise. -/
def load_state (persisted : Option DedupState) (today : String) : DedupState :=
  match persisted with
  | none => { date := today, seen := [] }
  | some st => if st.date = today then st else { date := today, seen := [] }

/-- Loop body of `filter_new_alerts`: keep alerts whose key is unseen, adding
each kept key to the seen set. -/
def filterNewGo {α : Type} (key_fn : α → String) : List α → List String → List α × List String
  | [], seen => ([], seen)
  | a :: rest, seen =>
    if key_fn a ∈ seen then filterNewGo key_fn rest seen
    else
      let r := filterNewGo key_fn rest (key_fn a :: seen)
      (a :: r.1, r.2)

/-- Embeds `monitor_utils.filter_new_alerts` (lines 152-166): returns the alerts not
yet seen today and the state it persists (`save_state`). -/
def filter_new_alerts {α : Type} (alerts : List α) (key_fn : α → String)
    (persisted : Option DedupState) (today : String) : List α × DedupState :=
  let st := load_state persisted today
  let r := filterNewGo key_fn alerts st.seen
  (r.1, { date := st.date, seen := r.2 })

/-! ## tools/monitor_7day_alerts.py — threshold alert engine (lines 163-242)

`check_side` scans one side's rows against the dollar and quantity thresholds.
Its module defines byte-identical copies of `parse_dollar`, `parse_qty`,
`find_column_index` and `safe_get` (lines 38-105); the shared embeddings above
are used for them.  The print statements are elided. -/

/-- Pattern string "today's date" (built by code point: `'` = 39). -/
def todaysDatePat : String :=
  "today" ++ String.mk [Char.ofNat 39] ++ "s date"

structure SideAlert where
  side : String
  row : Nat
  label : String
  date : String
  time : String
  insights : String
  field : String
  value : ℚ
  threshold : ℚ
deriving DecidableEq

/-- Alerts of one data row of `check_side` (loop body, lines 195-240). -/
def checkSideRow (side_label : String) (date_idx time_idx ticker_idx xmonth_idx
    xdate_idx expiry_idx strike_idx call_dollar_idx put_dollar_idx call_qty_idx
    put_qty_idx insights_idx : Option Nat) (dollar_threshold qty_threshold : ℚ)
    (row_offset : Nat) (row : List String) : List SideAlert :=
  let sheet_row := row_offset + 5
  let row_date := safe_get row date_idx ""
  let row_time := safe_get row time_idx ""
  let ticker := safe_get row ticker_idx "???"
  let expiry :=
    if expiry_idx.isSome then safe_get row expiry_idx ""
    else if xmonth_idx.isSome && xdate_idx.isSome then
      pyStrip (safe_get row xmonth_idx "" ++ " " ++ safe_get row xdate_idx "")
    else ""
  let strike := safe_get row strike_idx ""
  let label := pyStrip (ticker ++ " " ++ expiry ++ " " ++ strike)
  let insights := safe_get row insights_idx ""
  let base : String × Nat × String × String × String × String :=
    (side_label, sheet_row, label, row_date, row_time, insights)
  let mk : String → ℚ → ℚ → SideAlert := fun field v thr =>
    ⟨base.1, base.2.1, base.2.2.1, base.2.2.2.1, base.2.2.2.2.1, base.2.2.2.2.2, field, v, thr⟩
  let a1 : List SideAlert :=
    match call_dollar_idx with
    | some _ =>
      let v := parse_dollar (safe_get row call_dollar_idx "")
      if dollar_threshold < v then [mk "Call$" v dollar_threshold] else []
    | none => []
  let a2 : List SideAlert :=
    match put_dollar_idx with
    | some _ =>
      let v := parse_dollar (safe_get row put_dollar_idx "")
      if dollar_threshold < v then [mk "Put$" v dollar_threshold] else []
    | none => []
  let a3 : List SideAlert :=
    match call_qty_idx with
    | some _ =>
      let v := parse_qty (safe_get row call_qty_idx "")
      if qty_threshold < v then [mk "Call Qty" v qty_threshold] else []
    | none => []
  let a4 : List SideAlert :=
    match put_qty_idx with
    | some _ =>
      let v := parse_qty (safe_get row put_qty_idx "")
      if qty_threshold < v then [mk "Put Qty" v qty_threshold] else []
    | none => []
  a1 ++ a2 ++ a3 ++ a4

/-- Embeds `monitor_7day_alerts.check_side` (lines 163-242): column discovery then a
threshold check per row; each exceeded field appends its own alert. -/
def check_side (side_label : String) (headers : List String)
    (data_rows : List (List String)) (dollar_threshold qty_threshold : ℚ) :
    List SideAlert :=
  let date_idx := find_column_index headers [todaysDatePat, "date"]
  let time_idx := find_column_index headers ["time"]
  let ticker_idx := find_column_index headers ["ticker", "symbol", "stock"]
  let xmonth_idx := find_column_index headers ["xmonth"]
  let xdate_idx := find_column_index headers ["xdate"]
  let expiry_idx := find_column_index headers ["expiry", "exp", "expiration"]
  let strike_idx := find_column_index headers ["strike"]
  let call_dollar_idx := find_column_index headers ["calls $", "call$", "call $", "call dollar"]
  let put_dollar_idx := find_column_index headers ["puts $", "put$", "put $", "put dollar"]
  let call_qty_idx := find_column_index headers ["calls qty", "call qty", "call quantity", "# calls", "call vol"]
  let put_qty_idx := find_column_index headers ["puts qty", "put qty", "put quantity", "# puts", "put vol"]
  let insights_idx := find_column_index headers ["order insights", "insights"]
  (data_rows.enum.map (fun p =>
    checkSideRow side_label date_idx time_idx ticker_idx xmonth_idx xdate_idx
      expiry_idx strike_idx call_dollar_idx put_dollar_idx call_qty_idx
      put_qty_idx insights_idx dollar_threshold qty_threshold p.1 p.2)).flatten

/-! ## tools/allday_db.py — historical store queries

A loaded store is the `allday_orders` table: a list of rows in rowid order,
each row carrying its integer primary key `id` (AUTOINCREMENT makes the ids
distinct). -/

structure AlldayRow where
  id : Nat
  side : String
  order_date : String
  order_time : String
  ticker : String
  xmonth : String
  xdate : String
  xyear : String
  dte : String
  strike : String
  trade_price : String
  target_price : String
  call_qty : ℚ
  call_dollar : ℚ
  put_qty : ℚ
  put_dollar : ℚ
  insights : String
deriving DecidableEq

/-- SQL `LOWER(insights) LIKE '%bullish%'`. -/
def insightsHas (word : String) (insights : String) : Bool :=
  subOf word.toList (listLower insights.toList)

/-- Aggregate row of `allday_db.query_net_flow` (lines 245-291).  The Python
function returns a dict with exactly the keys `bullish_dollar`,
`bearish_dollar`, `bullish_qty`, `bearish_qty`, `bullish_count`,
`bearish_count` and `direction`. -/
structure NetFlow where
  bullish_dollar : ℚ
  bearish_dollar : ℚ
  bullish_qty : ℚ
  bearish_qty : ℚ
  bullish_count : ℚ
  bearish_count : ℚ
  direction : String
deriving DecidableEq

/-- Embeds `allday_db.query_net_flow` (lines 245-291): sums over the ticker's rows
split by the insight text; the aggregate SELECT always returns one row, so the
result is always a dict (never `None`). -/
def query_net_flow (store : List AlldayRow) (ticker : String) : NetFlow :=
  let rows := store.filter (fun r => r.ticker == ticker)
  let bull := rows.filter (fun r => insightsHas "bullish" r.insights)
  let bear := rows.filter (fun r => insightsHas "bearish" r.insights)
  let bullish_dollar := bull.foldl (fun (s : ℚ) r => s + r.call_dollar + r.put_dollar) 0
  let bearish_dollar := bear.foldl (fun (s : ℚ) r => s + r.call_dollar + r.put_dollar) 0
  let bullish_qty := bull.foldl (fun (s : ℚ) r => s + r.call_qty + r.put_qty) 0
  let bearish_qty := bear.foldl (fun (s : ℚ) r => s + r.call_qty + r.put_qty) 0
  let direction :=
    if bearish_dollar < bullish_dollar then "BULLISH"
    else if bullish_dollar < bearish_dollar then "BEARISH"
    else "NEUTRAL"
  ⟨bullish_dollar, bearish_dollar, bullish_qty, bearish_qty,
   (bull.length : ℚ), (bear.length : ℚ), direction⟩

/-- Subscripting the dict `query_net_flow` returns by a numeric key.  Its keys
are the six aggregate numbers (plus `direction`, a string, which
`check_multi_source` never reads); any other key raises `KeyError`. -/
def NetFlow.getNum (nf : NetFlow) (k : String) : Except String ℚ :=
  if k = "bullish_dollar" then .ok nf.bullish_dollar
  else if k = "bearish_dollar" then .ok nf.bearish_dollar
  else if k = "bullish_qty" then .ok nf.bullish_qty
  else if k = "bearish_qty" then .ok nf.bearish_qty
  else if k = "bullish_count" then .ok nf.bullish_count
  else if k = "bearish_count" then .ok nf.bearish_count
  else .error ("KeyError: " ++ k)

/-- Strike normalisation of `query_opposite_orders` (line 400):
`strike.rstrip("0").rstrip(".") if "." in strike else strike`. -/
def strike_norm_of (strike : String) : String :=
  if strike.toList.contains '.' then rstripChar '.' (rstripChar '0' strike)
  else strike

/-- Row condition of the call-quantity query (line 384). -/
def oppRowCall (ticker opposite_side : String) (call_qty : ℚ) (r : AlldayRow) : Bool :=
  r.ticker == ticker && r.side == opposite_side && r.call_qty == call_qty
    && decide ((0 : ℚ) < r.call_qty)

/-- Row condition of the put-quantity query (line 393). -/
def oppRowPut (ticker opposite_side : String) (put_qty : ℚ) (r : AlldayRow) : Bool :=
  r.ticker == ticker && r.side == opposite_side && r.put_qty == put_qty
    && decide ((0 : ℚ) < r.put_qty)

/-- Row condition of the strike+expiry query (lines 401-407). -/
def oppRowStrike (ticker opposite_side strike xmonth xdate : String) (r : AlldayRow) : Bool :=
  r.ticker == ticker && r.side == opposite_side
    && (r.strike == strike || r.strike == strike_norm_of strike)
    && r.xmonth == xmonth && r.xdate == xdate

/-- Dedup loop of `query_opposite_orders` (lines 413-418): keep the first
occurrence of each row id. -/
def dedupByIdGo : List Nat → List (AlldayRow × String) → List (AlldayRow × String)
  | _, [] => []
  | seen, (r, m) :: rest =>
    if r.id ∈ seen then dedupByIdGo seen rest
    else (r, m) :: dedupByIdGo (r.id :: seen) rest

/-- Embeds `allday_db.query_opposite_orders` (lines 363-420): three gated queries —
call quantity, put quantity, strike+expiry — concatenated then deduplicated by
row id, each match tagged with its `match_reason`.  The Python gates
`if call_qty and call_qty > 0` / `if strike and xmonth and xdate` skip a query
when its argument is zero / an empty string. -/
def query_opposite_orders (store : List AlldayRow) (ticker opposite_side : String)
    (call_qty put_qty : ℚ) (strike xmonth xdate : String) :
    List (AlldayRow × String) :=
  let m1 :=
    if decide ((0 : ℚ) < call_qty) then
      (store.filter (oppRowCall ticker opposite_side call_qty)).map
        (fun r => (r, "Same Call Qty"))
    else []
  let m2 :=
    if decide ((0 : ℚ) < put_qty) then
      (store.filter (oppRowPut ticker opposite_side put_qty)).map
        (fun r => (r, "Same Put Qty"))
    else []
  let m3 :=
    if !(strike == "") && !(xmonth == "") && !(xdate == "") then
      (store.filter (oppRowStrike ticker opposite_side strike xmonth xdate)).map
        (fun r => (r, "Same Strike + Expiry"))
    else []
  dedupByIdGo [] (m1 ++ m2 ++ m3)

/-! ## tools/multi_source_check.py — reconciliation engine

Sheet reading (`read_7day_entries`, `read_floor_entries`) is transport and is
out of scope; the engine receives the parsed row lists.  `_ticker_direction`
only reads a row's ticker and its four flow numbers, so an `MSEntry` carries
exactly those. -/

structure MSEntry where
  ticker : String
  call_dollar : ℚ
  put_dollar : ℚ
  call_qty : ℚ
  put_qty : ℚ
deriving DecidableEq

/-- Per-ticker aggregate built by `_ticker_direction` (lines 175-201). -/
structure TickerAgg where
  call_dollar : ℚ
  put_dollar : ℚ
  call_qty : ℚ
  put_qty : ℚ
  entries : List MSEntry
  direction : String
deriving DecidableEq

/-- Fold one entry into the insertion-ordered ticker map (lines 180-188). -/
def aggUpd (m : List (String × TickerAgg)) (e : MSEntry) : List (String × TickerAgg) :=
  match m with
  | [] => [(e.ticker, ⟨e.call_dollar, e.put_dollar, e.call_qty, e.put_qty, [e], ""⟩)]
  | (t, a) :: rest =>
    if t = e.ticker then
      (t, ⟨a.call_dollar + e.call_dollar, a.put_dollar + e.put_dollar,
           a.call_qty + e.call_qty, a.put_qty + e.put_qty, a.entries ++ [e],
           a.direction⟩) :: rest
    else (t, a) :: aggUpd rest e

/-- Embeds `multi_source_check._ticker_direction` (lines 175-201): aggregate flows per
ticker, then derive the direction from the dollar totals. -/
def ticker_direction (entries : List MSEntry) : List (String × TickerAgg) :=
  (entries.foldl aggUpd []).map (fun p =>
    (p.1, { p.2 with direction :=
      if p.2.put_dollar < p.2.call_dollar then "BULLISH"
      else if p.2.call_dollar < p.2.put_dollar then "BEARISH"
      else "NEUTRAL" }))

/-- Python string comparison: lexicographic on code points. -/
def listCharLt : List Char → List Char → Bool
  | _, [] => false
  | [], _ :: _ => true
  | a :: as_, b :: bs => a < b || (a = b && listCharLt as_ bs)

/-- Insert into an ascending list (used to model `sorted(...)`). -/
def insertStr (x : String) : List String → List String
  | [] => [x]
  | y :: rest =>
    if listCharLt y.toList x.toList then y :: insertStr x rest else x :: y :: rest

/-- Python `sorted` on strings. -/
def sortStrs (l : List String) : List String :=
  l.foldr insertStr []

/-- Python `sorted(set(dir_7day) & set(dir_floor))` (lines 221, 230); the maps' key
lists are duplicate-free by construction of `aggUpd`. -/
def commonTickers (d7 df : List (String × TickerAgg)) : List String :=
  sortStrs ((d7.map Prod.fst).filter (fun t => (df.map Prod.fst).contains t))

/-- A confirmation candidate as built at lines 258-275.  The
`expiry_flow` entry (top-5 per-expiry breakdown from
`query_net_flow_by_expiry`, notification context only) is omitted: the
candidate computation fails before reaching it, see `msConfLoop`. -/
structure Confirmed where
  ticker : String
  direction : String
  d7 : TickerAgg
  floor : TickerAgg
  net_flow : NetFlow
  hist_direction : Option String
  hist_aligned : Option Bool
  side : String
  label : String
  field : String
  call_dollar : ℚ
  call_qty : ℚ
  put_dollar : ℚ
  put_qty : ℚ
deriving DecidableEq

/-- Per-ticker loop of `check_multi_source` (lines 230-275).  For each common
ticker with two non-NEUTRAL directions it reads
`net_flow["net_call_dollar"]` and `net_flow["net_put_dollar"]` (lines
242-246); `query_net_flow` returns no such keys, so the subscript is a
`KeyError`. -/
def msConfLoop (d7m dfm : List (String × TickerAgg)) (store : List AlldayRow) :
    List String → Except String (List Confirmed)
  | [] => .ok []
  | t :: rest =>
    match List.lookup t d7m, List.lookup t dfm with
    | some d7, some df =>
      if d7.direction == "NEUTRAL" || df.direction == "NEUTRAL" then
        msConfLoop d7m dfm store rest
      else do
        let nf := query_net_flow store t
        let ncd ← nf.getNum "net_call_dollar"
        let npd ← nf.getNum "net_put_dollar"
        let hist_direction : Option String :=
          if ncd ≠ 0 ∨ npd ≠ 0 then
            if npd < ncd then some "BULLISH" else some "BEARISH"
          else none
        let sources_aligned := d7.direction == df.direction
        let hist_aligned : Option Bool :=
          hist_direction.map (fun hd => hd == d7.direction)
        let restConf ← msConfLoop d7m dfm store rest
        if sources_aligned then
          .ok (⟨t, d7.direction, d7, df, nf, hist_direction, hist_aligned,
                d7.direction, t, "multi_source",
                d7.call_dollar + df.call_dollar, d7.call_qty + df.call_qty,
                d7.put_dollar + df.put_dollar, d7.put_qty + df.put_qty⟩ :: restConf)
        else .ok restConf
    | _, _ => msConfLoop d7m dfm store rest

/-- Candidate computation of `multi_source_check.check_multi_source` (lines
204-275): per-source ticker directions, intersection, then the per-ticker
loop.  Everything after candidate construction (dedup via
`filter_new_alerts`, message, Telegram) consumes the candidates and is
elided. -/
def check_multi_source (buying selling : List MSEntry)
    (floorSections : List (List MSEntry)) (store : List AlldayRow) :
    Except String (List Confirmed) :=
  let dir_7day := ticker_direction (buying ++ selling)
  let dir_floor := ticker_direction (floorSections.foldl (fun acc l => acc ++ l) [])
  msConfLoop dir_7day dir_floor store (commonTickers dir_7day dir_floor)

/-- A 7Day row as `check_opposite_orders` consumes it (parsed by
`multi_source_check._parse_rows`, lines 43-104): the fields the opposite-order
check reads, plus the row content hash used for dedup.  The md5 keying of
`_row_seen_key` (lines 377-381) is modelled by the pre-image string itself
(hashing is assumed collision-free). -/
structure SRow where
  side : String
  ticker : String
  xmonth : String
  xdate : String
  strike : String
  call_qty : ℚ
  call_dollar : ℚ
  put_qty : ℚ
  put_dollar : ℚ
  row_hash : String
deriving DecidableEq

/-- Embeds `multi_source_check._row_seen_key` (lines 377-381). -/
def row_seen_key (e : SRow) : String :=
  e.side ++ "|" ++ e.row_hash

/-- Top-level names bound in `tools/multi_source_check.py`: its imports (lines
17-34) and its own definitions.  `ROWS_SEEN_STATE`, `OPPOSITE_ORDER_STATE` and
`query_opposite_orders` are referenced by `check_opposite_orders` (lines 396,
419, 452) but appear nowhere in this list: evaluating them raises `NameError`. -/
def multiSourceCheckGlobals : List String :=
  ["os", "sys", "json", "hashlib", "argparse", "datetime", "ZoneInfo",
   "read_sheet", "send_telegram", "parse_dollar", "parse_qty",
   "find_column_index", "safe_get", "format_number", "format_qty",
   "filter_new_alerts", "query_net_flow", "query_net_flow_by_expiry",
   "MULTI_SOURCE_STATE", "_parse_rows", "read_7day_entries",
   "read_floor_entries", "_ticker_direction", "check_multi_source",
   "_build_multi_source_message", "_row_seen_key", "check_opposite_orders",
   "_build_opposite_message", "main"]

/-- Module-global name resolution in `tools/multi_source_check.py`. -/
def resolveGlobal (n : String) : Except String String :=
  if multiSourceCheckGlobals.contains n then .ok n
  else .error ("NameError: name " ++ n ++ " is not defined")

/-- Embeds `multi_source_check.check_opposite_orders` (lines 384-465).  With no rows
it prints a notice and returns (lines 389-392).  Otherwise its first statement
past the local import is `load_state(ROWS_SEEN_STATE)` (line 396), and the
argument lookup raises `NameError`, so lines 396-465 — the store query, the
candidate construction, and the seen-state update — are unreachable (they
would in turn need `query_opposite_orders`, never imported, and
`OPPOSITE_ORDER_STATE`, also undefined). -/
def check_opposite_orders (buying selling : List SRow) : Except String Unit := do
  let all_rows := buying ++ selling
  if all_rows.isEmpty then
    return ()                                -- "No 7Day entries to check."
  let _ ← resolveGlobal "ROWS_SEEN_STATE"    -- line 396: NameError
  let _ ← resolveGlobal "query_opposite_orders"
  let _ ← resolveGlobal "OPPOSITE_ORDER_STATE"
  return ()

instance {ε α : Type} [DecidableEq ε] [DecidableEq α] : DecidableEq (Except ε α) := fun
  | .error a, .error b =>
    if h : a = b then .isTrue (by rw [h]) else .isFalse (fun he => by cases he; exact h rfl)
  | .error _, .ok _ => .isFalse (fun he => by cases he)
  | .ok _, .error _ => .isFalse (fun he => by cases he)
  | .ok a, .ok b =>
    if h : a = b then .isTrue (by rw [h]) else .isFalse (fun he => by cases he; exact h rfl)


/-! ## tools/unified_db.py — unified record store

Sheet transport is out of scope: `load_all` receives the list of entries its
loaders produced (lines 338-345 concatenate them in source order).
`_parse_rows` depends on the environment's clock in two places, passed here as
parameters: `todayYear2` is `str(date.today().year % 100)` (line 151) and
`dteExpiry n` is the `(str(month), str(day), str(year % 100))` decomposition
of `date.today() + timedelta(days=n)` (lines 132-135). -/

structure FlowEntry where
  source : String
  side : String
  order_date : String
  order_time : String
  ticker : String
  xmonth : String
  xdate : String
  xyear : String
  dte : String
  strike : String
  trade_price : String
  target_price : String
  call_qty : ℚ
  call_dollar : ℚ
  put_qty : ℚ
  put_dollar : ℚ
  insights : String
  direction : String
deriving DecidableEq

/-- Expiry normalisation of `_parse_rows` (lines 129-151): back-fill from DTE,
strip leading zeros through `int()`, default the year. -/
def normalizeExpiry (xmonth0 xdate0 xyear0 dte_val : String)
    (todayYear2 : String) (dteExpiry : Int → String × String × String) :
    String × String × String :=
  let filled :=
    if xmonth0 = "" ∧ xdate0 = "" ∧ dte_val ≠ "" then
      match pyInt dte_val with
      | some n => dteExpiry n
      | none => (xmonth0, xdate0, xyear0)   -- int() raised; `pass`
    else (xmonth0, xdate0, xyear0)
  let xm :=
    match pyInt filled.1 with
    | some n => toString n
    | none => filled.1
  let xd :=
    match pyInt filled.2.1 with
    | some n => toString n
    | none => filled.2.1
  let xy :=
    if xm ≠ "" ∧ xd ≠ "" ∧ filled.2.2 = "" then todayYear2 else filled.2.2
  (xm, xd, xy)

/-- One data row of `unified_db._parse_rows` (lines 110-172); `none` when the
row has no ticker and is skipped. -/
def parseRowU (source side_label : String) (date_idx time_idx ticker_idx
    xmonth_idx xdate_idx xyear_idx dte_idx strike_idx trade_price_idx
    target_price_idx call_qty_idx call_dollar_idx put_qty_idx put_dollar_idx
    insights_idx : Option Nat) (todayYear2 : String)
    (dteExpiry : Int → String × String × String) (row : List String) :
    Option FlowEntry :=
  let ticker := pyStrip (safe_get row ticker_idx "")
  if ticker = "" then none
  else
    let insights := safe_get row insights_idx ""
    let direction :=
      if insightsHas "bullish" insights then "BULLISH"
      else if insightsHas "bearish" insights then "BEARISH"
      else ""
    let dte_val := pyStrip (safe_get row dte_idx "")
    let xs := normalizeExpiry (pyStrip (safe_get row xmonth_idx ""))
      (pyStrip (safe_get row xdate_idx "")) (pyStrip (safe_get row xyear_idx ""))
      dte_val todayYear2 dteExpiry
    some
      { source := source
        side := side_label
        order_date := safe_get row date_idx ""
        order_time := safe_get row time_idx ""
        ticker := ticker
        xmonth := xs.1
        xdate := xs.2.1
        xyear := xs.2.2
        dte := dte_val
        strike := pyStrip (safe_get row strike_idx "")
        trade_price := safe_get row trade_price_idx ""
        target_price := safe_get row target_price_idx ""
        call_qty := match call_qty_idx with
          | some _ => parse_qty (safe_get row call_qty_idx "")
          | none => 0
        call_dollar := match call_dollar_idx with
          | some _ => parse_dollar (safe_get row call_dollar_idx "")
          | none => 0
        put_qty := match put_qty_idx with
          | some _ => parse_qty (safe_get row put_qty_idx "")
          | none => 0
        put_dollar := match put_dollar_idx with
          | some _ => parse_dollar (safe_get row put_dollar_idx "")
          | none => 0
        insights := insights
        direction := direction }

/-- Embeds `unified_db._parse_rows` (lines 90-174): column auto-detection, then one
normalized entry per row that has a ticker. -/
def parse_rows (source side_label : String) (headers : List String)
    (data_rows : List (List String)) (todayYear2 : String)
    (dteExpiry : Int → String × String × String) : List FlowEntry :=
  let date_idx := find_column_index headers [todaysDatePat, "order date", "date"]
  let time_idx := find_column_index headers ["time", "order time"]
  let ticker_idx := find_column_index headers ["ticker", "symbol", "stock"]
  let xmonth_idx := find_column_index headers ["xmonth"]
  let xdate_idx := find_column_index headers ["xdate"]
  let xyear_idx := find_column_index headers ["xyear", "x year"]
  let dte_idx := find_column_index headers ["dte"]
  let strike_idx := find_column_index headers ["strike"]
  let trade_price_idx := find_column_index headers ["trade price", "trd $", "trade $"]
  let target_price_idx := find_column_index headers ["price target", "price traget", "trgt", "target price"]
  let call_qty_idx := find_column_index headers ["calls qty", "call qty", "call quantity"]
  let call_dollar_idx := find_column_index headers ["calls $", "call $", "call$", "calls premiums"]
  let put_qty_idx := find_column_index headers ["puts qty", "put qty", "put quantity"]
  let put_dollar_idx := find_column_index headers ["puts $", "put $", "put$", "puts premiums"]
  let insights_idx := find_column_index headers ["order insights", "insights"]
  data_rows.filterMap (parseRowU source side_label date_idx time_idx ticker_idx
    xmonth_idx xdate_idx xyear_idx dte_idx strike_idx trade_price_idx
    target_price_idx call_qty_idx call_dollar_idx put_qty_idx put_dollar_idx
    insights_idx todayYear2 dteExpiry)

/-- A row of the `flow_orders` table: a parsed entry plus `loaded_date`. -/
structure FlowRow where
  entry : FlowEntry
  loaded_date : String
deriving DecidableEq

/-- The unified database: the `flow_orders` table in rowid order and the
`flow_meta` key-value table. -/
structure FlowDB where
  rows : List FlowRow
  meta : List (String × String)
deriving DecidableEq

/-- Floor section names (`unified_db.FLOOR_CONFIGS`, line 33). -/
def FLOOR_CONFIGS : List String :=
  ["Floor_SPX_0DTE", "Floor_SPX_DTEPlus", "Floor_NDX_0DTE", "Floor_NDX_DTEPlus",
   "Floor_All", "Floor_All_21DTE"]

/-- Upsert into `flow_meta` (`INSERT OR REPLACE`, lines 320-323). -/
def metaPut (meta : List (String × String)) (k v : String) : List (String × String) :=
  if meta.any (fun p => p.1 == k) then
    meta.map (fun p => if p.1 == k then (k, v) else p)
  else meta ++ [(k, v)]

/-- The `executemany` insert (lines 305-318), with an injected fault: the
statement raises once it reaches parameter row `i` when `failAt = some i`
(modelling a bulk insert that fails partway; `none`, or an index past the end,
means the insert completes). -/
def insertRowsOrFail (today : String) (failAt : Option Nat) :
    List FlowEntry → Nat → Except String (List FlowRow)
  | [], _ => .ok []
  | e :: rest, i =>
    if failAt = some i then .error "bulk insert raised"
    else (insertRowsOrFail today failAt rest (i + 1)).map (⟨e, today⟩ :: ·)

/-- Embeds `unified_db._insert_entries` (lines 293-325) as one sqlite transaction:
delete (filtered by source or total), bulk insert, meta upsert, then commit.
The delete guard is Python truthiness — `if source_filter:` — so both `None`
and the empty string fall through to `DELETE FROM flow_orders`, clearing the
whole table; only a non-empty filter restricts the delete to that source's
rows.  The returned pair is (committed database after the call, outcome): an
exception before the commit leaves the committed database unchanged. -/
def insert_entries (entries : List FlowEntry) (source_filter : Option String)
    (failAt : Option Nat) (today : String) (db : FlowDB) :
    FlowDB × Except String Unit :=
  let kept :=
    match source_filter with
    | some s =>
      if s = "" then []                -- falsy filter: `else` branch, clear all
      else db.rows.filter (fun r => !(r.entry.source == s))
    | none => []
  match insertRowsOrFail today failAt entries 0 with
  | .error e => (db, .error e)
  | .ok newRows => (⟨kept ++ newRows, metaPut db.meta "loaded_date" today⟩, .ok ())

/-- Embeds `unified_db.load_all` (lines 328-387), after its loaders have produced
`entries`.  A single-source call restricts the delete to that source; the
single-source "Floor" call (lines 352-381) instead deletes each floor
section's rows on one connection and COMMITS, then inserts on a second
connection — two transactions, not one.  Any other call clears the whole
table inside `_insert_entries`. -/
def load_all (sources : List String) (entries : List FlowEntry)
    (failAt : Option Nat) (today : String) (db : FlowDB) :
    FlowDB × Except String Unit :=
  match sources with
  | [s] =>
    if s = "Floor" then
      -- transaction 1: delete every floor section's rows, commit
      let db1 : FlowDB :=
        ⟨db.rows.filter (fun r => !(FLOOR_CONFIGS.contains r.entry.source)), db.meta⟩
      -- transaction 2: insert all entries, stamp the meta, commit
      match insertRowsOrFail today failAt entries 0 with
      | .error e => (db1, .error e)
      | .ok newRows => (⟨db1.rows ++ newRows, metaPut db1.meta "loaded_date" today⟩, .ok ())
    else insert_entries entries (some s) failAt today db
  | _ => insert_entries entries none failAt today db

/-! ## Concrete inputs and claim criteria used by the theorems -/

/-- Call-quantity criterion of the claim, including the query gate
(`call_qty > 0`). -/
def oppCritCall (ticker opposite_side : String) (call_qty : ℚ) (r : AlldayRow) : Bool :=
  decide ((0 : ℚ) < call_qty) && oppRowCall ticker opposite_side call_qty r

/-- Put-quantity criterion of the claim, including the query gate. -/
def oppCritPut (ticker opposite_side : String) (put_qty : ℚ) (r : AlldayRow) : Bool :=
  decide ((0 : ℚ) < put_qty) && oppRowPut ticker opposite_side put_qty r

/-- Strike+expiry criterion, including the nonemptiness gate
(`if strike and xmonth and xdate`). -/
def oppCritStrike (ticker opposite_side strike xmonth xdate : String) (r : AlldayRow) : Bool :=
  (!(strike == "") && !(xmonth == "") && !(xdate == ""))
    && oppRowStrike ticker opposite_side strike xmonth xdate r

/-- The `match_reason` of the first satisfied criterion, in the order
call-qty, put-qty, strike+expiry. -/
def oppFirstReason (c1 c2 : Bool) : String :=
  if c1 then "Same Call Qty" else if c2 then "Same Put Qty" else "Same Strike + Expiry"

/-- A historical store row with the fields the claims exercise; the remaining
text fields are empty. -/
def mkARow (rid : Nat) (side ticker xmonth xdate strike : String) (cq pq : ℚ) : AlldayRow :=
  ⟨rid, side, "", "", ticker, xmonth, xdate, "", "", strike, "", "", cq, 0, pq, 0, ""⟩

/-- Identity environment for the DTE back-fill (the claims it serves never
reach it). -/
def dteExpiryNull : Int → String × String × String := fun _ => ("", "", "")

/-! ## Supporting lemmas — dedup substrate -/

theorem load_state_date (p : Option DedupState) (today : String) :
    (load_state p today).date = today := by
  cases p with
  | none => rfl
  | some st =>
    by_cases h : st.date = today
    · simp [load_state, h]
    · simp [load_state, h]

theorem filterNewGo_seen_sub {α : Type} (f : α → String) :
    ∀ (l : List α) (seen : List String) (k : String),
      k ∈ seen → k ∈ (filterNewGo f l seen).2 := by
  intro l
  induction l with
  | nil => intro seen k hk; simpa [filterNewGo] using hk
  | cons a rest ih =>
    intro seen k hk
    simp only [filterNewGo]
    split
    · exact ih seen k hk
    · exact ih (f a :: seen) k (List.mem_cons_of_mem _ hk)

theorem filterNewGo_key_mem {α : Type} (f : α → String) :
    ∀ (l : List α) (seen : List String) (a : α),
      a ∈ l → f a ∈ (filterNewGo f l seen).2 := by
  intro l
  induction l with
  | nil => intro seen a ha; cases ha
  | cons b rest ih =>
    intro seen a ha
    simp only [filterNewGo]
    rcases List.mem_cons.1 ha with h | h
    · subst h
      split
      · next hb => exact filterNewGo_seen_sub f rest seen _ hb
      · exact filterNewGo_seen_sub f rest _ _ (List.mem_cons_self _ _)
    · split
      · exact ih seen a h
      · exact ih (f b :: seen) a h

theorem filterNewGo_all_seen {α : Type} (f : α → String) :
    ∀ (l : List α) (seen : List String),
      (∀ a ∈ l, f a ∈ seen) → filterNewGo f l seen = ([], seen) := by
  intro l
  induction l with
  | nil => intro seen _; rfl
  | cons a rest ih =>
    intro seen h
    simp only [filterNewGo]
    rw [if_pos (h a (List.mem_cons_self _ _))]
    exact ih seen (fun b hb => h b (List.mem_cons_of_mem _ hb))

theorem filterNewGo_fresh {α : Type} (f : α → String) :
    ∀ (l : List α) (seen : List String),
      (l.map f).Nodup → (∀ a ∈ l, f a ∉ seen) → (filterNewGo f l seen).1 = l := by
  intro l
  induction l with
  | nil => intro seen _ _; rfl
  | cons a rest ih =>
    intro seen hnd hns
    simp only [filterNewGo]
    rw [if_neg (hns a (List.mem_cons_self _ _))]
    simp only []
    have hnd2 : (rest.map f).Nodup := (List.nodup_cons.1 (by simpa using hnd)).2
    have hhead : f a ∉ rest.map f := (List.nodup_cons.1 (by simpa using hnd)).1
    have : (filterNewGo f rest (f a :: seen)).1 = rest := by
      refine ih (f a :: seen) hnd2 ?_
      intro b hb
      intro hmem
      rcases List.mem_cons.1 hmem with h | h
      · exact hhead (h ▸ List.mem_map_of_mem f hb)
      · exact hns b (List.mem_cons_of_mem _ hb) h
    rw [this]

/-- C2: the dedup substrate notifies each key at most once per calendar day.
With a stale persisted state (its date differs from today) `load_state`
discards its content; the first `filter_new_alerts` call of the day then
returns the full candidate set (keys pairwise distinct), and re-submitting the
same set the same day — whatever state the first call started from — returns
an empty list, because every key was added to the persisted seen-set. -/
theorem dedup_at_most_once_per_day {α : Type} (alerts : List α) (key_fn : α → String)
    (st : DedupState) (persisted : Option DedupState) (today : String)
    (hstale : st.date ≠ today) (hkeys : (alerts.map key_fn).Nodup) :
    load_state (some st) today = { date := today, seen := [] } ∧
    (filter_new_alerts alerts key_fn (some st) today).1 = alerts ∧
    (filter_new_alerts alerts key_fn
        (some (filter_new_alerts alerts key_fn persisted today).2) today).1 = [] := by
  have hload : load_state (some st) today = { date := today, seen := [] } := by
    simp [load_state, hstale]
  refine ⟨hload, ?_, ?_⟩
  · show (filterNewGo key_fn alerts (load_state (some st) today).seen).1 = alerts
    rw [hload]
    exact filterNewGo_fresh key_fn alerts [] hkeys (by intro a _; simp)
  · -- the state the first call persists: dated today, holding every key
    set s1 := (filter_new_alerts alerts key_fn persisted today).2 with hs1
    have hdate : s1.date = today := by
      rw [hs1]
      show (load_state persisted today).date = today
      exact load_state_date persisted today
    have hseen : ∀ a ∈ alerts, key_fn a ∈ s1.seen := by
      intro a ha
      rw [hs1]
      exact filterNewGo_key_mem key_fn alerts _ a ha
    show (filterNewGo key_fn alerts (load_state (some s1) today).seen).1 = []
    have : load_state (some s1) today = s1 := by simp [load_state, hdate]
    rw [this, filterNewGo_all_seen key_fn alerts s1.seen hseen]

/-- Witness for `dedup_at_most_once_per_day` at a concrete stale state and a
two-alert candidate set. -/
theorem dedup_at_most_once_per_day_witness :
    load_state (some ⟨"2026-10-11", ["k0"]⟩) "2026-10-12" = { date := "2026-10-12", seen := [] } ∧
    (filter_new_alerts ["a", "b"] id (some ⟨"2026-10-11", ["k0"]⟩) "2026-10-12").1 = ["a", "b"] ∧
    (filter_new_alerts ["a", "b"] id
        (some (filter_new_alerts ["a", "b"] id (some ⟨"2026-10-10", ["z"]⟩) "2026-10-12").2)
        "2026-10-12").1 = [] :=
  dedup_at_most_once_per_day ["a", "b"] id ⟨"2026-10-11", ["k0"]⟩
    (some ⟨"2026-10-10", ["z"]⟩) "2026-10-12" (by decide) (by decide)

/-! ## Supporting lemmas — column discovery -/

theorem find_column_index_none_iff (pats : List String) :
    ∀ headers : List String,
      find_column_index headers pats = none ↔ ∀ h ∈ headers, headerMatches h pats = false := by
  intro headers
  induction headers with
  | nil => simp [find_column_index]
  | cons h rest ih =>
    by_cases hm : headerMatches h pats
    · simp [find_column_index, hm]
    · simp only [find_column_index, if_neg hm, Option.map_eq_none']
      rw [ih]
      constructor
      · intro hall h2 hh2
        rcases List.mem_cons.1 hh2 with h' | h'
        · subst h'; exact Bool.eq_false_iff.2 hm
        · exact hall h2 h'
      · intro hall h2 hh2
        exact hall h2 (List.mem_cons_of_mem _ hh2)

theorem find_column_index_some_iff (pats : List String) :
    ∀ (headers : List String) (i : Nat),
      find_column_index headers pats = some i ↔
        (∃ h, headers[i]? = some h ∧ headerMatches h pats = true) ∧
          ∀ j, j < i → ∀ h2, headers[j]? = some h2 → headerMatches h2 pats = false := by
  intro headers
  induction headers with
  | nil => intro i; simp [find_column_index]
  | cons h rest ih =>
    intro i
    by_cases hm : headerMatches h pats
    · simp only [find_column_index, if_pos hm]
      cases i with
      | zero => simp [hm]
      | succ n =>
        simp only [Option.some.injEq]
        constructor
        · intro he; cases he
        · rintro ⟨-, hbefore⟩
          have := hbefore 0 (Nat.succ_pos n) h (by simp)
          rw [hm] at this
          cases this
    · simp only [find_column_index, if_neg hm, Option.map_eq_some']
      cases i with
      | zero =>
        constructor
        · rintro ⟨a, -, ha⟩; cases ha
        · rintro ⟨⟨h2, hh2, hmm⟩, -⟩
          simp only [List.getElem?_cons_zero, Option.some.injEq] at hh2
          subst hh2
          rw [hmm] at hm
          cases hm rfl
      | succ n =>
        constructor
        · rintro ⟨a, hfind, ha⟩
          have han : a = n := by omega
          rw [han] at hfind
          rcases (ih n).1 hfind with ⟨⟨h2, hh2, hmm⟩, hbefore⟩
          refine ⟨⟨h2, by simpa using hh2, hmm⟩, ?_⟩
          intro j hj h3 hh3
          cases j with
          | zero =>
            simp only [List.getElem?_cons_zero, Option.some.injEq] at hh3
            subst hh3
            exact Bool.eq_false_iff.2 hm
          | succ m =>
            exact hbefore m (by omega) h3 (by simpa using hh3)
        · rintro ⟨⟨h2, hh2, hmm⟩, hbefore⟩
          refine ⟨n, ?_, rfl⟩
          refine (ih n).2 ⟨⟨h2, by simpa using hh2, hmm⟩, ?_⟩
          intro j hj h3 hh3
          exact hbefore (j + 1) (by omega) h3 (by simpa using hh3)

/-- C8 (amended): `find_column_index` matches case-insensitively after
collapsing whitespace and returns the index of the first header containing any
pattern as a substring, `none` when no header matches.  The header
`"Calls  Qty\n"` normalises to `"calls qty"`: pattern `"calls qty"` matches it
(index 0), while the claim's pattern `"call qty"` is not a substring of
`"calls qty"` and matches nothing. -/
theorem find_column_index_first_matching_header :
    (∀ (headers pats : List String) (i : Nat),
      find_column_index headers pats = some i ↔
        (∃ h, headers[i]? = some h ∧ headerMatches h pats = true) ∧
          ∀ j, j < i → ∀ h2, headers[j]? = some h2 → headerMatches h2 pats = false) ∧
    (∀ headers pats : List String,
      find_column_index headers pats = none ↔
        ∀ h ∈ headers, headerMatches h pats = false) ∧
    normHeader "Calls  Qty\n" = "calls qty".toList ∧
    find_column_index ["Calls  Qty\n"] ["calls qty"] = some 0 ∧
    find_column_index ["Calls  Qty\n"] ["call qty"] = none :=
  ⟨fun headers pats i => find_column_index_some_iff pats headers i,
   fun headers pats => find_column_index_none_iff pats headers,
   by decide, by decide, by decide⟩

/-- C8 counterexample: pattern `"call qty"` does not match the header
`"Calls  Qty\n"` — `find_column_index` returns `none`, not index 0 as the
claim states. -/
theorem find_column_index_call_qty_no_match :
    find_column_index ["Calls  Qty\n"] ["call qty"] = none ∧
    find_column_index ["Calls  Qty\n"] ["call qty"] ≠ some 0 := by
  decide

/-! ## Supporting lemmas — opposite-order query -/

theorem id_inj_of_nodup :
    ∀ store : List AlldayRow, ((store.map (fun r => r.id)).Nodup) →
      ∀ a ∈ store, ∀ b ∈ store, a.id = b.id → a = b := by
  intro store
  induction store with
  | nil => intro _ a ha; cases ha
  | cons s rest ih =>
    intro hnd a ha b hb hab
    have hnd' : s.id ∉ List.map (fun r => r.id) rest ∧
        (List.map (fun r => r.id) rest).Nodup := by
      rw [List.map_cons, List.nodup_cons] at hnd
      exact hnd
    rcases List.mem_cons.1 ha with h1 | h1 <;> rcases List.mem_cons.1 hb with h2 | h2
    · rw [h1, h2]
    · subst h1
      exact absurd (hab ▸ List.mem_map_of_mem (fun r => r.id) h2) hnd'.1
    · subst h2
      exact absurd (hab ▸ List.mem_map_of_mem (fun r => r.id) h1) hnd'.1
    · exact ih hnd'.2 a h1 b h2 hab

theorem mem_dedupByIdGo :
    ∀ (l : List (AlldayRow × String)) (seen : List Nat) (r : AlldayRow) (m : String),
      (r, m) ∈ dedupByIdGo seen l ↔
        (r.id ∉ seen ∧ l.find? (fun p => p.1.id == r.id) = some (r, m)) := by
  intro l
  induction l with
  | nil => intro seen r m; simp [dedupByIdGo, List.find?]
  | cons p rest ih =>
    obtain ⟨s, n⟩ := p
    intro seen r m
    simp only [dedupByIdGo]
    by_cases hs : s.id ∈ seen
    · rw [if_pos hs, ih]
      by_cases hid : s.id = r.id
      · constructor
        · rintro ⟨hns, -⟩; exact absurd (hid ▸ hs) hns
        · rintro ⟨hns, hfind⟩
          rw [List.find?] at hfind
          simp only [hid, beq_self_eq_true] at hfind
          cases hfind
          exact absurd (hid ▸ hs) hns
      · rw [List.find?]
        have : ((s, n).1.id == r.id) = false := by simpa using hid
        rw [this]
    · rw [if_neg hs]
      by_cases hid : s.id = r.id
      · constructor
        · intro hmem
          rcases List.mem_cons.1 hmem with h | h
          · cases h
            refine ⟨hs, ?_⟩
            rw [List.find?]
            simp
          · have := (ih (s.id :: seen) r m).1 h
            exact absurd (hid ▸ List.mem_cons_self _ _) this.1
        · rintro ⟨hns, hfind⟩
          rw [List.find?] at hfind
          simp only [hid, beq_self_eq_true] at hfind
          cases hfind
          exact List.mem_cons_self _ _
      · rw [List.find?]
        have hbeq : ((s, n).1.id == r.id) = false := by simpa using hid
        rw [hbeq]
        constructor
        · intro hmem
          rcases List.mem_cons.1 hmem with h | h
          · cases h; exact absurd rfl hid
          · have := (ih (s.id :: seen) r m).1 h
            refine ⟨fun hrs => this.1 (List.mem_cons_of_mem _ hrs), this.2⟩
        · rintro ⟨hns, hfind⟩
          refine List.mem_cons_of_mem _ ((ih (s.id :: seen) r m).2 ⟨?_, hfind⟩)
          intro hmem
          rcases List.mem_cons.1 hmem with h | h
          · exact hid h.symm
          · exact hns h

theorem dedupByIdGo_nodup :
    ∀ (l : List (AlldayRow × String)) (seen : List Nat),
      (∀ p ∈ dedupByIdGo seen l, p.1.id ∉ seen) ∧
        ((dedupByIdGo seen l).map (fun p => p.1.id)).Nodup := by
  intro l
  induction l with
  | nil => intro seen; exact ⟨fun p hp => absurd hp (by simp [dedupByIdGo]), by simp [dedupByIdGo]⟩
  | cons p rest ih =>
    obtain ⟨s, n⟩ := p
    intro seen
    simp only [dedupByIdGo]
    by_cases hs : s.id ∈ seen
    · rw [if_pos hs]; exact ih seen
    · rw [if_neg hs]
      have h2 := ih (s.id :: seen)
      constructor
      · intro q hq
        rcases List.mem_cons.1 hq with h | h
        · subst h; exact hs
        · exact fun hmem => h2.1 q h (List.mem_cons_of_mem _ hmem)
      · rw [List.map_cons, List.nodup_cons]
        refine ⟨?_, h2.2⟩
        intro hmem
        rcases List.mem_map.1 hmem with ⟨q, hq, hqid⟩
        exact h2.1 q hq (hqid ▸ List.mem_cons_self _ _)

theorem find?_block (reason : String) (r : AlldayRow) (rowPred : AlldayRow → Bool) :
    ∀ store : List AlldayRow, r ∈ store →
      (∀ a ∈ store, a.id = r.id → a = r) →
      ((store.filter rowPred).map (fun x => (x, reason))).find?
          (fun p => p.1.id == r.id) =
        (if rowPred r then some (r, reason) else none) := by
  intro store
  induction store with
  | nil => intro hr; cases hr
  | cons s rest ih =>
    intro hr hinj
    have hinj' : ∀ a ∈ rest, a.id = r.id → a = r :=
      fun a ha => hinj a (List.mem_cons_of_mem _ ha)
    by_cases hps : rowPred s
    · rw [List.filter_cons_of_pos hps, List.map_cons, List.find?]
      by_cases hid : s.id = r.id
      · have hsr : s = r := hinj s (List.mem_cons_self _ _) hid
        subst hsr
        simp [hps]
      · have hbeq : ((s, reason).1.id == r.id) = false := by simpa using hid
        rw [hbeq]
        have hr' : r ∈ rest := by
          rcases List.mem_cons.1 hr with h | h
          · exact absurd (h ▸ rfl : s.id = r.id) hid
          · exact h
        exact ih hr' hinj'
    · rw [List.filter_cons_of_neg hps]
      rcases List.mem_cons.1 hr with h | h
      · -- r is the skipped head: rowPred r is false and no id-equal row remains
        have hpr : rowPred r = false := by rw [h]; simpa using hps
        rw [hpr]
        simp only [Bool.false_eq_true, if_false]
        apply List.find?_eq_none.2
        intro p hmem hbeq
        rcases List.mem_map.1 hmem with ⟨x, hx, hxm⟩
        have hxmem : x ∈ rest ∧ rowPred x = true := by
          have hmf := List.mem_filter.1 hx
          exact ⟨hmf.1, hmf.2⟩
        have hp1 : p.1 = x := by rw [← hxm]
        have hxid : x.id = r.id := by
          rw [hp1] at hbeq
          simpa using hbeq
        have hxr : x = r := hinj' x hxmem.1 hxid
        rw [hxr, hpr] at hxmem
        exact Bool.false_ne_true hxmem.2
      · exact ih h hinj'

theorem find?_gated_block (gate : Bool) (reason : String) (r : AlldayRow)
    (rowPred : AlldayRow → Bool) (store : List AlldayRow) (hr : r ∈ store)
    (hinj : ∀ a ∈ store, a.id = r.id → a = r) :
    ((if gate then (store.filter rowPred).map (fun x => (x, reason)) else []).find?
        (fun p => p.1.id == r.id)) =
      (if gate && rowPred r then some (r, reason) else none) := by
  cases gate with
  | false => simp [List.find?]
  | true => simpa using find?_block reason r rowPred store hr hinj

theorem mem_gated_block (gate : Bool) (reason : String) (r : AlldayRow) (m : String)
    (rowPred : AlldayRow → Bool) (store : List AlldayRow) :
    (r, m) ∈ (if gate then (store.filter rowPred).map (fun x => (x, reason)) else []) →
      r ∈ store := by
  cases gate with
  | false => intro h; cases h
  | true =>
    intro h
    simp only [if_pos] at h
    rcases List.mem_map.1 h with ⟨x, hx, hxm⟩
    cases hxm
    exact (List.mem_filter.1 hx).1

/-- C5 (amended): `query_opposite_orders` returns exactly the stored rows on
the opposite side for the ticker satisfying one of the three criteria — the
query callQty is positive and the row's callQty equals it, the query putQty is
positive and the row's putQty equals it, or the query strike, expiry month and
expiry day are all nonempty and the row matches on strike (exactly or against
the normalised strike: trailing `0`s then trailing `.`s stripped when the
strike contains a point) and on both expiry parts.  A row satisfying several
criteria appears exactly once (row ids are unique — the store's primary key),
with the matchReason of the first satisfied criterion in the order call-qty,
put-qty, strike+expiry. -/
theorem query_opposite_orders_exact_matches (store : List AlldayRow)
    (ticker opposite_side : String) (call_qty put_qty : ℚ) (strike xmonth xdate : String)
    (hid : (store.map (fun r => r.id)).Nodup) :
    (∀ r m_, (r, m_) ∈ query_opposite_orders store ticker opposite_side call_qty
        put_qty strike xmonth xdate ↔
      (r ∈ store ∧
        (oppCritCall ticker opposite_side call_qty r
          || oppCritPut ticker opposite_side put_qty r
          || oppCritStrike ticker opposite_side strike xmonth xdate r) = true ∧
        m_ = oppFirstReason (oppCritCall ticker opposite_side call_qty r)
          (oppCritPut ticker opposite_side put_qty r))) ∧
    ((query_opposite_orders store ticker opposite_side call_qty put_qty strike
        xmonth xdate).map (fun p => p.1.id)).Nodup := by
  constructor
  · intro r m_
    simp only [query_opposite_orders]
    rw [mem_dedupByIdGo]
    constructor
    · rintro ⟨-, hfind⟩
      have hmem := List.mem_of_find?_eq_some hfind
      have hr : r ∈ store := by
        rcases List.mem_append.1 hmem with hm | hm
        · rcases List.mem_append.1 hm with hm2 | hm2
          · exact mem_gated_block _ _ _ _ _ _ hm2
          · exact mem_gated_block _ _ _ _ _ _ hm2
        · exact mem_gated_block _ _ _ _ _ _ hm
      have hinj : ∀ a ∈ store, a.id = r.id → a = r :=
        fun a ha hab => id_inj_of_nodup store hid a ha r hr hab
      rw [List.find?_append, List.find?_append,
        find?_gated_block _ _ _ _ _ hr hinj, find?_gated_block _ _ _ _ _ hr hinj,
        find?_gated_block _ _ _ _ _ hr hinj] at hfind
      refine ⟨hr, ?_⟩
      by_cases c1 : decide ((0 : ℚ) < call_qty) && oppRowCall ticker opposite_side call_qty r
      · simp only [c1, Option.or] at hfind
        cases hfind
        simp [oppCritCall, oppFirstReason, c1]
      · by_cases c2 : decide ((0 : ℚ) < put_qty) && oppRowPut ticker opposite_side put_qty r
        · simp only [c1, c2, Option.or, if_false, Bool.false_eq_true] at hfind
          cases hfind
          simp [oppCritCall, oppCritPut, oppFirstReason, c1, c2]
        · by_cases c3 : (!(strike == "") && !(xmonth == "") && !(xdate == ""))
              && oppRowStrike ticker opposite_side strike xmonth xdate r
          · simp only [c1, c2, c3, Option.or, if_false, Bool.false_eq_true] at hfind
            cases hfind
            simp [oppCritCall, oppCritPut, oppCritStrike, oppFirstReason, c1, c2, c3]
          · simp only [c1, c2, c3, Option.or, if_false, Bool.false_eq_true] at hfind
            cases hfind
    · rintro ⟨hr, hcrit, hm⟩
      have hinj : ∀ a ∈ store, a.id = r.id → a = r :=
        fun a ha hab => id_inj_of_nodup store hid a ha r hr hab
      refine ⟨by simp, ?_⟩
      rw [List.find?_append, List.find?_append,
        find?_gated_block _ _ _ _ _ hr hinj, find?_gated_block _ _ _ _ _ hr hinj,
        find?_gated_block _ _ _ _ _ hr hinj]
      rw [oppFirstReason] at hm
      by_cases c1 : decide ((0 : ℚ) < call_qty) && oppRowCall ticker opposite_side call_qty r
      · simp only [oppCritCall] at hm
        simp only [c1, if_true, if_pos, Option.or] at hm ⊢
        rw [hm]
      · by_cases c2 : decide ((0 : ℚ) < put_qty) && oppRowPut ticker opposite_side put_qty r
        · simp only [oppCritCall, oppCritPut, c1, c2] at hm
          simp only [c1, c2, Option.or, if_false, Bool.false_eq_true, if_true] at hm ⊢
          rw [hm]
        · have c3 : ((!(strike == "") && !(xmonth == "") && !(xdate == ""))
              && oppRowStrike ticker opposite_side strike xmonth xdate r) = true := by
            simp only [oppCritCall, oppCritPut, oppCritStrike] at hcrit
            rcases Bool.or_eq_true_iff.1 hcrit with hc | hc
            · rcases Bool.or_eq_true_iff.1 hc with hc2 | hc2
              · exact absurd hc2 c1
              · exact absurd hc2 c2
            · exact hc
          simp only [oppCritCall, oppCritPut, c1, c2] at hm
          simp only [c1, c2, c3, Option.or, if_false, Bool.false_eq_true, if_true] at hm ⊢
          rw [hm]
  · simp only [query_opposite_orders]
    exact (dedupByIdGo_nodup _ []).2

/-- Witness for `query_opposite_orders_exact_matches`: a near-term BUYING row
for NVDA with callQty 500 against a store holding a SELLING row with
callQty 500 (matched, reason "Same Call Qty") and a SELLING row with
callQty 0, putQty 500 (not matched). -/
theorem query_opposite_orders_exact_matches_witness :
    (([mkARow 1 "SELLING" "NVDA" "" "" "" 500 0,
       mkARow 2 "SELLING" "NVDA" "" "" "" 0 500].map (fun r => r.id)).Nodup) ∧
    ((∀ r m_, (r, m_) ∈ query_opposite_orders
        [mkARow 1 "SELLING" "NVDA" "" "" "" 500 0,
         mkARow 2 "SELLING" "NVDA" "" "" "" 0 500] "NVDA" "SELLING" 500 0 "" "" "" ↔
      (r ∈ [mkARow 1 "SELLING" "NVDA" "" "" "" 500 0,
            mkARow 2 "SELLING" "NVDA" "" "" "" 0 500] ∧
        (oppCritCall "NVDA" "SELLING" 500 r
          || oppCritPut "NVDA" "SELLING" 0 r
          || oppCritStrike "NVDA" "SELLING" "" "" "" r) = true ∧
        m_ = oppFirstReason (oppCritCall "NVDA" "SELLING" 500 r)
          (oppCritPut "NVDA" "SELLING" 0 r))) ∧
    ((query_opposite_orders
        [mkARow 1 "SELLING" "NVDA" "" "" "" 500 0,
         mkARow 2 "SELLING" "NVDA" "" "" "" 0 500] "NVDA" "SELLING" 500 0 "" "" "").map
        (fun p => p.1.id)).Nodup) :=
  ⟨by decide,
   query_opposite_orders_exact_matches
     [mkARow 1 "SELLING" "NVDA" "" "" "" 500 0,
      mkARow 2 "SELLING" "NVDA" "" "" "" 0 500] "NVDA" "SELLING" 500 0 "" "" ""
     (by decide)⟩

/-- C5 counterexample: a stored SELLING row for NVDA whose strike, expiry
month and expiry day all equal the query's (all are empty strings) satisfies
the claim's strike+expiry condition, yet `query_opposite_orders` returns no
row: the code skips the strike query whenever any of the three arguments is
empty. -/
theorem query_opposite_orders_empty_strike_not_matched :
    query_opposite_orders [mkARow 1 "SELLING" "NVDA" "" "" "" 0 0]
        "NVDA" "SELLING" 0 0 "" "" "" = [] ∧
    (mkARow 1 "SELLING" "NVDA" "" "" "" 0 0).side = "SELLING" ∧
    (mkARow 1 "SELLING" "NVDA" "" "" "" 0 0).ticker = "NVDA" ∧
    (mkARow 1 "SELLING" "NVDA" "" "" "" 0 0).strike = "" ∧
    (mkARow 1 "SELLING" "NVDA" "" "" "" 0 0).xmonth = "" ∧
    (mkARow 1 "SELLING" "NVDA" "" "" "" 0 0).xdate = "" := by
  with_unfolding_all decide

/-- C1 (code bug): for a ticker common to the 7Day and Floor feeds whose two
aggregate directions are non-NEUTRAL, `check_multi_source` subscripts the
net-flow dict with `net_call_dollar` — a key `query_net_flow` does not return
(its keys are `bullish_dollar`, `bearish_dollar`, …) — and raises `KeyError`
instead of emitting a candidate; the same happens when the two directions
differ.  Only when a direction is NEUTRAL is the ticker skipped before the
subscript, with no candidate and no error. -/
theorem check_multi_source_keyerror :
    check_multi_source [⟨"TSLA", 100, 0, 1, 0⟩] [] [[⟨"TSLA", 50, 0, 1, 0⟩]] []
      = .error "KeyError: net_call_dollar" ∧
    check_multi_source [⟨"TSLA", 100, 0, 1, 0⟩] [] [[⟨"TSLA", 0, 50, 0, 1⟩]] []
      = .error "KeyError: net_call_dollar" ∧
    check_multi_source [⟨"TSLA", 100, 0, 1, 0⟩] [] [[⟨"TSLA", 50, 50, 1, 1⟩]] []
      = .ok [] :=
  ⟨by with_unfolding_all rfl, by with_unfolding_all rfl, by with_unfolding_all rfl⟩

/-- C6 (code bug): `check_opposite_orders` with any non-empty 7Day row set
raises `NameError` on its first statement past the guard — `ROWS_SEEN_STATE`
is not defined anywhere in its module — so no row is ever checked against the
store or marked as seen; with no rows it returns after printing a notice. -/
theorem check_opposite_orders_nameerror :
    check_opposite_orders [⟨"BUYING", "TSLA", "1", "17", "150", 500, 600000, 0, 0, "h1"⟩] []
      = .error "NameError: name ROWS_SEEN_STATE is not defined" ∧
    check_opposite_orders [] [] = .ok () :=
  ⟨by with_unfolding_all rfl, by with_unfolding_all rfl⟩

/-- C7 counterexample: `parse_qty` does not strip the currency symbol, so
`parse_qty "$1,234,567"` is 0.0, not the 1234567.0 the claim states for both
parsers. -/
theorem parse_qty_dollar_sign_unparsable :
    parse_qty "$1,234,567" = 0 ∧ parse_qty "$1,234,567" ≠ 1234567 := by
  have h0 : parse_qty "$1,234,567" = 0 := by with_unfolding_all rfl
  refine ⟨h0, ?_⟩
  rw [h0]
  with_unfolding_all decide

set_option maxRecDepth 4000 in
/-- C7 (amended): `parse_dollar` strips the currency symbol and thousands
separators and honours a trailing K/M/B suffix case-insensitively
(×1e3/1e6/1e9); `parse_qty` strips thousands separators only — no currency
symbol — and honours only K/M; both return 0.0 on any parse failure.  The
claim's example values hold for `parse_dollar`; under `parse_qty` the
currency-bearing examples parse to 0.0 and a B suffix is unparsable. -/
theorem parse_dollar_parse_qty_values :
    parse_dollar "$1,234,567" = 1234567 ∧
    parse_dollar "$1.2M" = 1200000 ∧
    parse_dollar "500K" = 500000 ∧
    parse_dollar "" = 0 ∧
    parse_dollar "abc" = 0 ∧
    parse_dollar "$1.2m" = 1200000 ∧
    parse_dollar "500k" = 500000 ∧
    parse_dollar "2B" = 2000000000 ∧
    parse_dollar "2b" = 2000000000 ∧
    parse_qty "1,234" = 1234 ∧
    parse_qty "500K" = 500000 ∧
    parse_qty "500k" = 500000 ∧
    parse_qty "1.2M" = 1200000 ∧
    parse_qty "" = 0 ∧
    parse_qty "abc" = 0 ∧
    parse_qty "$1,234,567" = 0 ∧
    parse_qty "$1.2M" = 0 ∧
    parse_qty "500B" = 0 :=
  ⟨by with_unfolding_all rfl, by with_unfolding_all rfl, by with_unfolding_all rfl,
   by with_unfolding_all rfl, by with_unfolding_all rfl, by with_unfolding_all rfl,
   by with_unfolding_all rfl, by with_unfolding_all rfl, by with_unfolding_all rfl,
   by with_unfolding_all rfl, by with_unfolding_all rfl, by with_unfolding_all rfl,
   by with_unfolding_all rfl, by with_unfolding_all rfl, by with_unfolding_all rfl,
   by with_unfolding_all rfl, by with_unfolding_all rfl, by with_unfolding_all rfl⟩

set_option maxRecDepth 4000 in
/-- C4 counterexample: the 2-row BUYING block of the claim yields two
candidate alerts, not exactly one — the AAPL row exceeds both the dollar
threshold (Call$ 600000 > 500000) and the quantity threshold
(Call Qty 1200 > 1000), and `check_side` appends one alert per exceeded
field. -/
theorem check_side_two_alerts :
    (check_side "BUYING" ["Ticker", "Strike", "Call Qty", "Call $"]
      [["AAPL", "150", "1200", "600000"], ["", "140", "10", "1000"]]
      500000 1000).length = 2 := by
  with_unfolding_all rfl

set_option maxRecDepth 4000 in
/-- C4 (amended): the 2-row BUYING block yields exactly two candidate alerts,
both for the AAPL row — field Call$ with value 600000 over threshold 500000,
then field Call Qty with value 1200 over threshold 1000.  The blank-ticker row
is not dropped by `check_side` (it keeps every row), but it produces no alert:
1000 and 10 are below the thresholds. -/
theorem check_side_aapl_block :
    check_side "BUYING" ["Ticker", "Strike", "Call Qty", "Call $"]
      [["AAPL", "150", "1200", "600000"], ["", "140", "10", "1000"]] 500000 1000
    = [⟨"BUYING", 5, "AAPL  150", "", "", "", "Call$", 600000, 500000⟩,
       ⟨"BUYING", 5, "AAPL  150", "", "", "", "Call Qty", 1200, 1000⟩] := by
  with_unfolding_all rfl

/-! ## Supporting lemmas — unified store reloads -/

theorem insertRowsOrFail_complete (today : String) :
    ∀ (entries : List FlowEntry) (i : Nat),
      insertRowsOrFail today none entries i
        = .ok (entries.map (fun e => ⟨e, today⟩)) := by
  intro entries
  induction entries with
  | nil => intro i; rfl
  | cons e rest ih =>
    intro i
    simp only [insertRowsOrFail]
    rw [if_neg (by simp)]
    rw [ih (i + 1)]
    rfl

theorem insert_entries_rollback (entries : List FlowEntry) (source_filter : Option String)
    (failAt : Option Nat) (today : String) (db : FlowDB) (e : String) :
    (insert_entries entries source_filter failAt today db).2 = .error e →
      (insert_entries entries source_filter failAt today db).1 = db := by
  intro herr
  unfold insert_entries at herr ⊢
  cases h : insertRowsOrFail today failAt entries 0 with
  | error msg => simp [h]
  | ok rows =>
    rw [h] at herr
    simp at herr

/-- C3 counterexample: the Floor single-source path of `load_all` commits the
delete of every floor section's rows in a transaction of its own before the
insert begins; when the bulk insert then raises, the store's prior Floor row
is gone — it is no longer queryable, contradicting the claim. -/
theorem load_all_floor_delete_survives_failure :
    (load_all ["Floor"]
        [⟨"Floor_All", "BUYING", "", "", "SPY", "", "", "", "", "", "", "", 0, 0, 0, 0, "", ""⟩]
        (some 0) "2026-10-12"
        ⟨[⟨⟨"Floor_All", "BUYING", "", "", "SPX", "", "", "", "", "", "", "", 0, 0, 0, 0, "", ""⟩,
           "2026-10-10"⟩], []⟩).2 = .error "bulk insert raised" ∧
    (load_all ["Floor"]
        [⟨"Floor_All", "BUYING", "", "", "SPY", "", "", "", "", "", "", "", 0, 0, 0, 0, "", ""⟩]
        (some 0) "2026-10-12"
        ⟨[⟨⟨"Floor_All", "BUYING", "", "", "SPX", "", "", "", "", "", "", "", 0, 0, 0, 0, "", ""⟩,
           "2026-10-10"⟩], []⟩).1.rows = [] := by
  with_unfolding_all decide

/-- C3 (amended): every reload path except the Floor single-source one runs as
a single transaction — delete, bulk insert, meta stamp, commit — so when the
reload fails after the new record set has been materialized (the bulk insert
raises), the committed store is exactly what it was before, and the prior rows
of every source remain queryable.  In the Floor single-source path of
`load_all` the delete of the floor sections' rows is committed by an earlier
separate transaction, so a failing insert leaves those rows deleted (rows of
other sources survive); within each transaction the delete and the insert
still apply all-or-nothing. -/
theorem load_all_failure_rollback (sources : List String) (entries : List FlowEntry)
    (failAt : Option Nat) (today : String) (db : FlowDB) (e : String)
    (herr : (load_all sources entries failAt today db).2 = .error e) :
    (sources ≠ ["Floor"] → (load_all sources entries failAt today db).1 = db) ∧
    (sources = ["Floor"] → (load_all sources entries failAt today db).1 =
      ⟨db.rows.filter (fun r => !(FLOOR_CONFIGS.contains r.entry.source)), db.meta⟩) := by
  match sources with
  | [] =>
    refine ⟨fun _ => ?_, fun hf => by cases hf⟩
    exact insert_entries_rollback entries none failAt today db e herr
  | [s] =>
    by_cases hs : s = "Floor"
    · subst hs
      refine ⟨fun hne => absurd rfl hne, fun _ => ?_⟩
      simp only [load_all, if_pos rfl] at herr ⊢
      cases h : insertRowsOrFail today failAt entries 0 with
      | error msg => simp [h]
      | ok rows =>
        rw [h] at herr
        simp at herr
    · have hload : load_all [s] entries failAt today db
          = insert_entries entries (some s) failAt today db := by
        simp [load_all, hs]
      rw [hload] at herr ⊢
      refine ⟨fun _ => insert_entries_rollback entries (some s) failAt today db e herr,
        fun hf => ?_⟩
      cases hf
      exact absurd rfl hs
  | a :: b :: t =>
    refine ⟨fun _ => ?_, fun hf => by cases hf⟩
    exact insert_entries_rollback entries none failAt today db e herr

/-- Witness for `load_all_failure_rollback`: a single-source allDay reload
whose insert raises at the first entry leaves the committed store unchanged. -/
theorem load_all_failure_rollback_witness :
    (["allDay"] ≠ ["Floor"] → (load_all ["allDay"]
        [⟨"allDay", "BUYING", "", "", "SPY", "", "", "", "", "", "", "", 0, 0, 0, 0, "", ""⟩]
        (some 0) "2026-10-12"
        ⟨[⟨⟨"7Day", "BUYING", "", "", "QQQ", "", "", "", "", "", "", "", 0, 0, 0, 0, "", ""⟩,
           "2026-10-10"⟩], []⟩).1 =
      ⟨[⟨⟨"7Day", "BUYING", "", "", "QQQ", "", "", "", "", "", "", "", 0, 0, 0, 0, "", ""⟩,
         "2026-10-10"⟩], []⟩) ∧
    (["allDay"] = ["Floor"] → (load_all ["allDay"]
        [⟨"allDay", "BUYING", "", "", "SPY", "", "", "", "", "", "", "", 0, 0, 0, 0, "", ""⟩]
        (some 0) "2026-10-12"
        ⟨[⟨⟨"7Day", "BUYING", "", "", "QQQ", "", "", "", "", "", "", "", 0, 0, 0, 0, "", ""⟩,
           "2026-10-10"⟩], []⟩).1 =
      ⟨(⟨[⟨⟨"7Day", "BUYING", "", "", "QQQ", "", "", "", "", "", "", "", 0, 0, 0, 0, "", ""⟩,
          "2026-10-10"⟩], []⟩ : FlowDB).rows.filter
          (fun r => !(FLOOR_CONFIGS.contains r.entry.source)), []⟩) :=
  load_all_failure_rollback ["allDay"]
    [⟨"allDay", "BUYING", "", "", "SPY", "", "", "", "", "", "", "", 0, 0, 0, 0, "", ""⟩]
    (some 0) "2026-10-12"
    ⟨[⟨⟨"7Day", "BUYING", "", "", "QQQ", "", "", "", "", "", "", "", 0, 0, 0, 0, "", ""⟩,
       "2026-10-10"⟩], []⟩ "bulk insert raised" (by with_unfolding_all rfl)

/-- C10: when `load_all` is invoked with two or more sources, `_insert_entries`
runs with no source filter and deletes every row of the `flow_orders` table —
rows of unrequested sources included — before inserting the fetched entries,
so the table afterwards holds exactly the new entries.  Only a single-source
invocation restricts the delete: for a non-Floor source name (nonempty — the
callers only pass "allDay", "7Day" or "Floor") only that source's rows are
replaced, and for "Floor" only the floor sections' rows are.  The guard is
Python truthiness, so the degenerate single-source name "" is falsy and also
clears the whole table (last conjunct). -/
theorem load_all_multi_source_clears_all (sources : List String)
    (entries : List FlowEntry) (today : String) (db : FlowDB)
    (hlen : 2 ≤ sources.length) :
    ((load_all sources entries none today db).1.rows
        = entries.map (fun e => ⟨e, today⟩) ∧
      (load_all sources entries none today db).2 = .ok ()) ∧
    (∀ s, s ≠ "Floor" → s ≠ "" → (load_all [s] entries none today db).1.rows
        = db.rows.filter (fun r => !(r.entry.source == s))
            ++ entries.map (fun e => ⟨e, today⟩)) ∧
    ((load_all ["Floor"] entries none today db).1.rows
        = db.rows.filter (fun r => !(FLOOR_CONFIGS.contains r.entry.source))
            ++ entries.map (fun e => ⟨e, today⟩)) ∧
    ((load_all [""] entries none today db).1.rows
        = entries.map (fun e => ⟨e, today⟩)) := by
  refine ⟨?_, ?_, ?_, ?_⟩
  · match sources with
    | [] => simp at hlen
    | [s] => simp at hlen
    | a :: b :: t =>
      simp only [load_all, insert_entries, insertRowsOrFail_complete today entries 0]
      exact ⟨rfl, by trivial⟩
  · intro s hs hs2
    simp only [load_all, hs, if_false, insert_entries,
      insertRowsOrFail_complete today entries 0, if_neg hs, if_neg hs2]
  · simp only [load_all, if_pos rfl, if_true, eq_self_iff_true,
      insertRowsOrFail_complete today entries 0]
  · have hne : ("" : String) ≠ "Floor" := by decide
    simp only [load_all, insert_entries, if_neg hne, if_pos rfl, if_true,
      eq_self_iff_true, insertRowsOrFail_complete today entries 0]
    rfl

/-- Witness for `load_all_multi_source_clears_all`: loading the two sources
allDay and 7Day replaces the whole table — a prior Floor_All row is deleted —
while the single-source paths keep other sources' rows (and the falsy name ""
clears everything). -/
theorem load_all_multi_source_clears_all_witness :
    (((load_all ["allDay", "7Day"]
        [⟨"allDay", "BUYING", "", "", "SPY", "", "", "", "", "", "", "", 0, 0, 0, 0, "", ""⟩]
        none "2026-10-12"
        ⟨[⟨⟨"Floor_All", "BUYING", "", "", "SPX", "", "", "", "", "", "", "", 0, 0, 0, 0, "", ""⟩,
           "2026-10-10"⟩], []⟩).1.rows
        = [⟨"allDay", "BUYING", "", "", "SPY", "", "", "", "", "", "", "", 0, 0, 0, 0, "", ""⟩].map
            (fun e => ⟨e, "2026-10-12"⟩) ∧
      (load_all ["allDay", "7Day"]
        [⟨"allDay", "BUYING", "", "", "SPY", "", "", "", "", "", "", "", 0, 0, 0, 0, "", ""⟩]
        none "2026-10-12"
        ⟨[⟨⟨"Floor_All", "BUYING", "", "", "SPX", "", "", "", "", "", "", "", 0, 0, 0, 0, "", ""⟩,
           "2026-10-10"⟩], []⟩).2 = .ok ()) ∧
      (∀ s, s ≠ "Floor" → s ≠ "" → (load_all [s]
        [⟨"allDay", "BUYING", "", "", "SPY", "", "", "", "", "", "", "", 0, 0, 0, 0, "", ""⟩]
        none "2026-10-12"
        ⟨[⟨⟨"Floor_All", "BUYING", "", "", "SPX", "", "", "", "", "", "", "", 0, 0, 0, 0, "", ""⟩,
           "2026-10-10"⟩], []⟩).1.rows
        = (⟨[⟨⟨"Floor_All", "BUYING", "", "", "SPX", "", "", "", "", "", "", "", 0, 0, 0, 0, "", ""⟩,
             "2026-10-10"⟩], []⟩ : FlowDB).rows.filter (fun r => !(r.entry.source == s))
            ++ [⟨"allDay", "BUYING", "", "", "SPY", "", "", "", "", "", "", "", 0, 0, 0, 0, "", ""⟩].map
                (fun e => ⟨e, "2026-10-12"⟩)) ∧
      ((load_all ["Floor"]
        [⟨"allDay", "BUYING", "", "", "SPY", "", "", "", "", "", "", "", 0, 0, 0, 0, "", ""⟩]
        none "2026-10-12"
        ⟨[⟨⟨"Floor_All", "BUYING", "", "", "SPX", "", "", "", "", "", "", "", 0, 0, 0, 0, "", ""⟩,
           "2026-10-10"⟩], []⟩).1.rows
        = (⟨[⟨⟨"Floor_All", "BUYING", "", "", "SPX", "", "", "", "", "", "", "", 0, 0, 0, 0, "", ""⟩,
             "2026-10-10"⟩], []⟩ : FlowDB).rows.filter
              (fun r => !(FLOOR_CONFIGS.contains r.entry.source))
            ++ [⟨"allDay", "BUYING", "", "", "SPY", "", "", "", "", "", "", "", 0, 0, 0, 0, "", ""⟩].map
                (fun e => ⟨e, "2026-10-12"⟩)) ∧
      ((load_all [""]
        [⟨"allDay", "BUYING", "", "", "SPY", "", "", "", "", "", "", "", 0, 0, 0, 0, "", ""⟩]
        none "2026-10-12"
        ⟨[⟨⟨"Floor_All", "BUYING", "", "", "SPX", "", "", "", "", "", "", "", 0, 0, 0, 0, "", ""⟩,
           "2026-10-10"⟩], []⟩).1.rows
        = [⟨"allDay", "BUYING", "", "", "SPY", "", "", "", "", "", "", "", 0, 0, 0, 0, "", ""⟩].map
            (fun e => ⟨e, "2026-10-12"⟩))) :=
  load_all_multi_source_clears_all ["allDay", "7Day"]
    [⟨"allDay", "BUYING", "", "", "SPY", "", "", "", "", "", "", "", 0, 0, 0, 0, "", ""⟩]
    "2026-10-12"
    ⟨[⟨⟨"Floor_All", "BUYING", "", "", "SPX", "", "", "", "", "", "", "", 0, 0, 0, 0, "", ""⟩,
       "2026-10-10"⟩], []⟩ (by decide)

/-! ## Supporting lemmas — row normalization -/

theorem safe_get_mem_or_default (row : List String) (idx : Option Nat) (d : String) :
    safe_get row idx d = d ∨ safe_get row idx d ∈ row := by
  cases idx with
  | none => left; rfl
  | some i =>
    cases h : row[i]? with
    | none => left; simp [safe_get, List.getD, h]
    | some x =>
      right
      have : safe_get row (some i) d = x := by simp [safe_get, List.getD, h]
      rw [this]
      exact List.getElem?_mem h

theorem parse_qty_empty : parse_qty "" = 0 := rfl

theorem parse_dollar_empty : parse_dollar "" = 0 := rfl

theorem parseRowU_nonneg (source side_label : String) (date_idx time_idx ticker_idx
    xmonth_idx xdate_idx xyear_idx dte_idx strike_idx trade_price_idx
    target_price_idx call_qty_idx call_dollar_idx put_qty_idx put_dollar_idx
    insights_idx : Option Nat) (todayYear2 : String)
    (dteExpiry : Int → String × String × String) (row : List String) (f : FlowEntry)
    (hsome : parseRowU source side_label date_idx time_idx ticker_idx xmonth_idx
      xdate_idx xyear_idx dte_idx strike_idx trade_price_idx target_price_idx
      call_qty_idx call_dollar_idx put_qty_idx put_dollar_idx insights_idx
      todayYear2 dteExpiry row = some f)
    (hcell : ∀ cell ∈ row, 0 ≤ parse_qty cell ∧ 0 ≤ parse_dollar cell) :
    0 ≤ f.call_qty ∧ 0 ≤ f.put_qty ∧ 0 ≤ f.call_dollar ∧ 0 ≤ f.put_dollar := by
  unfold parseRowU at hsome
  by_cases ht : pyStrip (safe_get row ticker_idx "") = ""
  · rw [if_pos ht] at hsome
    cases hsome
  · rw [if_neg ht] at hsome
    injection hsome with hf
    have hqty : ∀ idx : Option Nat,
        0 ≤ (match idx with
          | some _ => parse_qty (safe_get row idx "")
          | none => (0 : ℚ)) := by
      intro idx
      cases idx with
      | none => simp
      | some i =>
        rcases safe_get_mem_or_default row (some i) "" with h | h
        · rw [h, parse_qty_empty]
        · exact (hcell _ h).1
    have hdol : ∀ idx : Option Nat,
        0 ≤ (match idx with
          | some _ => parse_dollar (safe_get row idx "")
          | none => (0 : ℚ)) := by
      intro idx
      cases idx with
      | none => simp
      | some i =>
        rcases safe_get_mem_or_default row (some i) "" with h | h
        · rw [h, parse_dollar_empty]
        · exact (hcell _ h).2
    refine ⟨?_, ?_, ?_, ?_⟩
    · rw [← hf]; exact hqty call_qty_idx
    · rw [← hf]; exact hqty put_qty_idx
    · rw [← hf]; exact hdol call_dollar_idx
    · rw [← hf]; exact hdol put_dollar_idx

/-- C9 (amended): every record `_parse_rows` produces has its four flow fields
equal either to the default 0.0 (column absent, cell missing or empty) or to
the parsed value of a cell of its row; so whenever each cell of each row
parses to a non-negative quantity and a non-negative dollar value — spreadsheet
cells never encode negative flow — all four fields are ≥ 0.  (Unconditional
non-negativity is false: a cell carrying a negative literal is stored as
parsed, see the counterexample.) -/
theorem parse_rows_flow_fields_nonneg (source side_label : String)
    (headers : List String) (data_rows : List (List String)) (todayYear2 : String)
    (dteExpiry : Int → String × String × String)
    (hcells : ∀ row ∈ data_rows, ∀ cell ∈ row, 0 ≤ parse_qty cell ∧ 0 ≤ parse_dollar cell) :
    ∀ f ∈ parse_rows source side_label headers data_rows todayYear2 dteExpiry,
      0 ≤ f.call_qty ∧ 0 ≤ f.put_qty ∧ 0 ≤ f.call_dollar ∧ 0 ≤ f.put_dollar := by
  intro f hf
  simp only [parse_rows] at hf
  rcases List.mem_filterMap.1 hf with ⟨row, hrow, hsome⟩
  exact parseRowU_nonneg _ _ _ _ _ _ _ _ _ _ _ _ _ _ _ _ _ _ _ row f hsome
    (hcells row hrow)

set_option maxRecDepth 4000 in
/-- C9 counterexample: a row whose Call Qty cell is "-5" normalizes to a
record with `call_qty = -5 < 0` — nothing clamps parsed negatives. -/
theorem parse_rows_negative_cell :
    (parse_rows "7Day" "BUYING" ["Ticker", "Call Qty"] [["A", "-5"]] "25"
        dteExpiryNull).map (fun f => f.call_qty) = [(-5 : ℚ)] ∧
    ¬ ((0 : ℚ) ≤ -5) := by
  constructor
  · with_unfolding_all rfl
  · with_unfolding_all decide

set_option maxRecDepth 4000 in
/-- Witness for `parse_rows_flow_fields_nonneg` on a concrete block whose
cells are non-negative. -/
theorem parse_rows_flow_fields_nonneg_witness :
    (∀ row ∈ [["A", "5"]], ∀ cell ∈ row, 0 ≤ parse_qty cell ∧ 0 ≤ parse_dollar cell) ∧
    (∀ f ∈ parse_rows "7Day" "BUYING" ["Ticker", "Call Qty"] [["A", "5"]] "25"
        dteExpiryNull,
      0 ≤ f.call_qty ∧ 0 ≤ f.put_qty ∧ 0 ≤ f.call_dollar ∧ 0 ≤ f.put_dollar) :=
  ⟨by with_unfolding_all decide,
   parse_rows_flow_fields_nonneg "7Day" "BUYING" ["Ticker", "Call Qty"] [["A", "5"]]
     "25" dteExpiryNull (by with_unfolding_all decide)⟩
